import Mathlib

/-
Verification of the loan-lifecycle orchestrator (main.go) against its
natural-language specification.  Strings are modelled as lists of
characters; each definition is a direct transcription of the Go code it
names in its doc comment.
-/

/-- Converts a string literal to the character-list representation used
throughout this development. -/
def str (s : String) : List Char := s.data

/-- Go unicode.IsSpace for the White_Space code points (the set used by
strings.TrimSpace). -/
def goIsSpace (c : Char) : Bool :=
  c = '\t' || c = '\n' || c = Char.ofNat 11 || c = Char.ofNat 12 ||
  c = '\r' || c = ' ' || c = Char.ofNat 0x85 || c = Char.ofNat 0xA0 ||
  c = Char.ofNat 0x1680 ||
  (decide (0x2000 ≤ c.toNat) && decide (c.toNat ≤ 0x200A)) ||
  c = Char.ofNat 0x2028 || c = Char.ofNat 0x2029 ||
  c = Char.ofNat 0x202F || c = Char.ofNat 0x205F || c = Char.ofNat 0x3000

/-- Go strings.TrimSpace: drop leading and trailing white space. -/
def trimSpace (s : List Char) : List Char :=
  List.reverse (List.dropWhile goIsSpace (List.reverse (List.dropWhile goIsSpace s)))

/-- Go strings.ReplaceAll with a one-character pattern and empty
replacement: remove every occurrence of the character. -/
def removeAll (a : Char) (s : List Char) : List Char :=
  s.filter (fun c => c ≠ a)

/-- Go strings.HasPrefix: the second list is a prefix of the first. -/
def startsWith : List Char → List Char → Bool
  | _, [] => true
  | [], _ :: _ => false
  | c :: cs, p :: ps => c = p && startsWith cs ps

/-- The separator-stripping phase of normalizePhoneNumber
(main.go lines 215-221): TrimSpace, then remove space, dash and the two
parentheses. -/
def cleanPhone (s : List Char) : List Char :=
  removeAll ')' (removeAll '(' (removeAll '-' (removeAll ' ' (trimSpace s))))

/-- The branch phase of normalizePhoneNumber (main.go lines 222-235):
a leading plus or a leading zero is replaced by the country prefix 62,
a string already starting with 62 passes unchanged, anything else is
cleared to the empty string. -/
def phoneBranch (no : List Char) : List Char :=
  if startsWith no ['+'] then '6' :: '2' :: no.tail
  else if startsWith no ['0'] then '6' :: '2' :: no.tail
  else if startsWith no ['6', '2'] then no
  else []

/-- normalizePhoneNumber (main.go lines 213-238). -/
def normalizePhoneNumber (no : List Char) : List Char :=
  phoneBranch (cleanPhone no)

/-- The ten decimal digit characters. -/
def digitChars : List Char :=
  ['0', '1', '2', '3', '4', '5', '6', '7', '8', '9']

/-- kirimPesanWaBangkit (main.go lines 240-266), modelled up to the HTTP
request it issues: the number is re-normalized, a number that does not
start with 62 is rejected before any request is built, otherwise the
result carries the (number, message) pair handed to the messaging
endpoint. -/
def kirimPesanWaBangkit (no pesan : List Char) :
    Except Unit (List Char × List Char) :=
  let n := normalizePhoneNumber no
  if startsWith n ['6', '2'] then Except.ok (n, pesan) else Except.error ()

/-- Go strings.TrimLeft with cutset "0": drop every leading zero digit. -/
def trimLeftZeros (s : List Char) : List Char :=
  s.dropWhile (fun c => c = '0')

/-- True when the character is one of the ten decimal digits
(Go unicode digits as used by strconv.Atoi on ASCII input). -/
def isDigitChar (c : Char) : Bool := c ∈ digitChars

/-- Go strconv.Atoi restricted to unsigned decimal input: every
character must be a digit and the string must be non-empty, otherwise
the conversion reports an error (signed input never reaches the call
sites modelled here). -/
def atoi (s : List Char) : Option Nat :=
  if s ≠ [] ∧ s.all isDigitChar then
    some (s.foldl (fun acc c => acc * 10 + (c.toNat - 48)) 0)
  else none

/-- Go fmt.Sprintf with the %04d verb on a non-negative number:
the decimal digits padded on the left with zeros to width four. -/
def pad4 (n : Nat) : List Char :=
  let d := Nat.toDigits 10 n
  List.replicate (4 - d.length) '0' ++ d

/-- Result of one Sheets range read: failure models a non-nil error from
the Values.Get call, ok none models a nil response or nil Values field,
ok (some vs) models a response carrying the rows vs. -/
inductive ReadResult (α : Type) where
  | failure : ReadResult α
  | ok : Option (List α) → ReadResult α

/-- Ordinal allocation of handlePinjam (main.go lines 439-454): a read
error aborts the pipeline (none); a nil or empty response starts at row
1; otherwise the row is the data-row count plus one. -/
def nextOrdinalPinjam : ReadResult (List (List Char)) → Option Nat
  | ReadResult.failure => none
  | ReadResult.ok none => some 1
  | ReadResult.ok (some vs) => some (if vs.length = 0 then 1 else vs.length + 1)

/-- Ordinal allocation of handleApprovalRequestNew (main.go lines
921-936): a read error aborts (none); otherwise rowNum is 6 for a nil
response and data-row count plus 6 for a response, and the recorded
ordinal is rowNum minus 5. -/
def nextOrdinalApproval : ReadResult (List (List Char)) → Option Nat
  | ReadResult.failure => none
  | ReadResult.ok none => some (6 - 5)
  | ReadResult.ok (some vs) => some (vs.length + 6 - 5)

/-- Ordinal allocation of handlePengembalian (main.go lines 1177-1189):
same shape as handlePinjam. -/
def nextOrdinalPengembalian : ReadResult (List (List Char)) → Option Nat
  | ReadResult.failure => none
  | ReadResult.ok none => some 1
  | ReadResult.ok (some vs) => some (if vs.length = 0 then 1 else vs.length + 1)

/-- Row lookup of handleApprove (main.go lines 587-593): scan the column
A values and return i plus 5 for the first index i whose row is
non-empty and whose first cell equals idPinjam by exact string
comparison. -/
def findRowApprove (idPinjam : List Char) : Nat → List (List (List Char)) → Option Nat
  | _, [] => none
  | i, row :: rest =>
    match row with
    | [] => findRowApprove idPinjam (i + 1) rest
    | c0 :: _ =>
      if c0 = idPinjam then some (i + 5) else findRowApprove idPinjam (i + 1) rest

/-- Row lookup of handleApprovalRequestNew (main.go lines 823-859):
return the first non-empty row whose first cell, after stripping leading
zeros, equals the similarly stripped idPinjam. -/
def resolveApprovalNew (idPinjam : List Char) : List (List (List Char)) → Option (List (List Char))
  | [] => none
  | row :: rest =>
    match row with
    | [] => resolveApprovalNew idPinjam rest
    | c0 :: cs =>
      if trimLeftZeros c0 = trimLeftZeros idPinjam then some (c0 :: cs)
      else resolveApprovalNew idPinjam rest

/-- Loan-row lookup of handlePengembalian (main.go lines 1099-1104):
identical tolerant scan over the Form Peminjam rows. -/
def resolvePengembalianLoan (idPeminjam : List Char) : List (List (List Char)) → Option (List (List Char))
  | [] => none
  | row :: rest =>
    match row with
    | [] => resolvePengembalianLoan idPeminjam rest
    | c0 :: cs =>
      if trimLeftZeros c0 = trimLeftZeros idPeminjam then some (c0 :: cs)
      else resolvePengembalianLoan idPeminjam rest

/-- The approval fields handlePengembalian copies out of the first
matching Approval Peminjaman row. -/
structure ApprovalJoin where
  approvalDate : List Char
  approvalStatus : List Char
  approverName : List Char
deriving DecidableEq, Repr

/-- Approval join of handlePengembalian (main.go lines 1130-1149): scan
the Approval Peminjaman rows, skip rows with at most four cells, and at
the first row whose fifth cell tolerantly matches the stripped loan
identifier copy out date (cell 1), status (cell 5) and approver name
(cell 3); a missing cell leaves the field empty, and no match leaves all
three fields empty. -/
def joinApproval (idTrim : List Char) : List (List (List Char)) → ApprovalJoin
  | [] => ⟨[], [], []⟩
  | row :: rest =>
    if 4 < row.length then
      if trimLeftZeros (row.getD 4 []) = idTrim then
        ⟨row.getD 1 [], row.getD 5 [], row.getD 3 []⟩
      else joinApproval idTrim rest
    else joinApproval idTrim rest

/-- FormData (main.go lines 25-44), with string fields as character
lists and JumlahAlat as the non-negative integer the modelled call
sites produce. -/
structure FormData where
  Nama : List Char := []
  Kelas : List Char := []
  NIS : List Char := []
  NoWA : List Char := []
  NamaAlat : List Char := []
  JumlahAlat : Nat := 0
  TanggalPinjam : List Char := []
  TanggalKembali : List Char := []
  Keterangan : List Char := []
  KeteranganPinjam : List Char := []
  FotoPath : List Char := []
  PeminjamanFotoPath : List Char := []
  ApprovalStatus : List Char := []
  KondisiAlat : List Char := []
  KeteranganPengembalian : List Char := []
  ApprovalDate : List Char := []
  ApproverName : List Char := []
deriving DecidableEq, Repr

/-- The FormData handlePengembalian builds from the matched loan row,
the request fields, the uploaded return-photo URL and the approval join
(main.go lines 1105-1152, 1164-1174).  The unconditional Go indexing of
cells 2 through 9 is rendered with getD, which coincides with the source
on the well-formed rows every theorem below uses. -/
def pengembalianForm (row : List (List Char))
    (kondisiAlat keteranganPengembalian fotoPath : List Char)
    (aj : ApprovalJoin) : FormData :=
  { Nama := row.getD 2 []
    Kelas := row.getD 3 []
    NIS := row.getD 4 []
    NoWA := row.getD 5 []
    NamaAlat := row.getD 6 []
    JumlahAlat := (atoi (row.getD 7 [])).getD 0
    TanggalPinjam := row.getD 8 []
    TanggalKembali := row.getD 9 []
    KondisiAlat := kondisiAlat
    KeteranganPengembalian := keteranganPengembalian
    KeteranganPinjam := if 10 < row.length then row.getD 10 [] else []
    PeminjamanFotoPath := if 12 < row.length then row.getD 12 [] else []
    FotoPath := fotoPath
    ApprovalDate := aj.approvalDate
    ApprovalStatus := aj.approvalStatus
    ApproverName := aj.approverName }

/-- The placeholder substitution map of generateSuratPengembalian
(main.go lines 1333-1352).  The three values the Go code computes from
the wall clock and the date arithmetic (the two current-date stamps and
the loan-duration text) enter as the parameters nowFmt and lamaFmt, and
the formatted ordinal as nomorFmt. -/
def pengembalianReplacements (form : FormData)
    (nomorFmt nowFmt lamaFmt : List Char) : List (List Char × List Char) :=
  [ (str "<<NMR>>", nomorFmt)
  , (str "<<TGL>>", nowFmt)
  , (str "<<TGLBALI>>", nowFmt)
  , (str "<<NAMA>>", form.Nama)
  , (str "<<KLS>>", form.Kelas)
  , (str "<<NIS>>", form.NIS)
  , (str "<<NO>>", form.NoWA)
  , (str "<<NMALT>>", form.NamaAlat)
  , (str "<<JML>>", Nat.toDigits 10 form.JumlahAlat)
  , (str "<<TGLPMJ>>", form.TanggalPinjam)
  , (str "<<TGLPGN>>", form.TanggalKembali)
  , (str "<<LMPJM>>", lamaFmt)
  , (str "<<KET>>", form.KeteranganPinjam)
  , (str "<<KNDS>>", form.KondisiAlat)
  , (str "<<KETALT>>", form.KeteranganPengembalian)
  , (str "<<TGLPS>>", form.ApprovalDate)
  , (str "<<STS>>", form.ApprovalStatus)
  , (str "<<YNG>>", form.ApproverName) ]

/-- Externally visible effects of one handlePengembalian invocation:
the ReturnRecord row write (target sheet row and cell values) if one
happened, and the normalized numbers a WhatsApp message was sent to. -/
structure PengEffects where
  ledgerWrite : Option (Nat × List (List Char))
  waSent : List (List Char)
deriving DecidableEq, Repr

/-- The handlePengembalian pipeline (main.go lines 1082-1312) on its
success path: resolve the loan row tolerantly (no match aborts with no
write and no notification), join the approval fields, allocate the next
Return ordinal (a failed extent read aborts), write the six-cell
ReturnRecord at sheet row ordinal plus 4, then notify the borrower when
the stored number normalizes to a 62 address and the approver when the
configured number does.  Wall-clock text and the uploaded photo URL
enter as parameters. -/
def pengembalianPipeline (loanRows approvalRows : List (List (List Char)))
    (idPeminjam kondisiAlat keteranganPengembalian fotoPath now approverNo : List Char)
    (pengRead : ReadResult (List (List Char))) : PengEffects :=
  match resolvePengembalianLoan idPeminjam loanRows with
  | none => ⟨none, []⟩
  | some loanRow =>
    let aj := joinApproval (trimLeftZeros idPeminjam) approvalRows
    let form := pengembalianForm loanRow kondisiAlat keteranganPengembalian fotoPath aj
    match nextOrdinalPengembalian pengRead with
    | none => ⟨none, []⟩
    | some row =>
      let idFmt := match atoi idPeminjam with
        | some n => pad4 n
        | none => idPeminjam
      let values := [idFmt, form.Nama, now, kondisiAlat, keteranganPengembalian, form.FotoPath]
      let sentPeminjam :=
        if form.NoWA = [] then []
        else
          let n := normalizePhoneNumber form.NoWA
          if n = [] ∨ startsWith n ['6', '2'] = false then [] else [n]
      let sentApprover :=
        let a := normalizePhoneNumber approverNo
        if a = [] ∨ startsWith a ['6', '2'] = false then [] else [a]
      ⟨some (row + 4, values), sentPeminjam ++ sentApprover⟩

/-- One individual Sheets cell write: column letter, sheet row, value. -/
structure CellWrite where
  col : Char
  row : Nat
  value : List Char
deriving DecidableEq, Repr

/-- Externally visible effects of the status-only handleApprove: the
individual cell writes it performs, the documents it renders and the
numbers it messages. -/
structure ApproveEffects where
  cellWrites : List CellWrite
  docsRendered : List (List Char)
  waSent : List (List Char)
deriving DecidableEq, Repr

/-- The status-only handleApprove (main.go lines 555-633): reject when
identifier, approver or decision is missing; resolve the row by exact
match on column A; then write status into column Q, the timestamp into
column R and the approver name into column S of that row.  No document
is rendered and no message is sent anywhere in the handler. -/
def handleApproveModel (vals : List (List (List Char)))
    (idPinjam approver statusPersetujuan now : List Char) :
    Option ApproveEffects :=
  if idPinjam = [] ∨ approver = [] ∨ statusPersetujuan = [] then none
  else
    match findRowApprove idPinjam 0 vals with
    | none => none
    | some rowIndex =>
      some ⟨[⟨'Q', rowIndex, statusPersetujuan⟩,
             ⟨'R', rowIndex, now⟩,
             ⟨'S', rowIndex, approver⟩], [], []⟩

/-- A ledger state addressed by sheet row and column letter. -/
def Ledger : Type := Nat → Char → List Char

/-- Applies one cell write to a ledger state. -/
def applyCellWrite (g : Ledger) (wr : CellWrite) : Ledger :=
  fun r c => if r = wr.row ∧ c = wr.col then wr.value else g r c

/-- Applies a list of cell writes in order. -/
def applyCellWrites (g : Ledger) (ws : List CellWrite) : Ledger :=
  ws.foldl applyCellWrite g

/-- Unfolding lemma: any prefix test against the empty pattern holds. -/
theorem startsWith_nil (s : List Char) : startsWith s [] = true := by
  cases s <;> rfl

/-- Unfolding lemma for the cons case of the prefix test. -/
theorem startsWith_cons (c p : Char) (cs ps : List Char) :
    startsWith (c :: cs) (p :: ps) = (decide (c = p) && startsWith cs ps) := rfl

/-- A prefix test fails as soon as the head characters differ. -/
theorem startsWith_head_ne {c p : Char} (cs ps : List Char) (h : c ≠ p) :
    startsWith (c :: cs) (p :: ps) = false := by
  rw [startsWith_cons]
  simp [h]

/-- A one-character prefix test on a matching head succeeds. -/
theorem startsWith_single_head (c : Char) (cs : List Char) :
    startsWith (c :: cs) [c] = true := by
  rw [startsWith_cons, startsWith_nil]
  simp

/-- A string passing the 62 prefix test starts with the two characters
6 and 2. -/
theorem startsWith62_shape (s : List Char)
    (h : startsWith s ['6', '2'] = true) : ∃ t, s = '6' :: '2' :: t := by
  match s with
  | [] => simp [startsWith] at h
  | [c] =>
    rw [startsWith_cons] at h
    simp [startsWith] at h
  | c :: d :: t =>
    rw [startsWith_cons, startsWith_cons, startsWith_nil] at h
    simp only [Bool.and_true, Bool.and_eq_true, decide_eq_true_eq] at h
    exact ⟨t, by rw [h.1, h.2]⟩

/-- Characters of the trimmed string come from the original string. -/
theorem mem_trimSpace {c : Char} {s : List Char} (h : c ∈ trimSpace s) : c ∈ s := by
  unfold trimSpace at h
  rw [List.mem_reverse] at h
  have h1 := (List.dropWhile_sublist (l := List.reverse (List.dropWhile goIsSpace s))
    (p := goIsSpace)).subset h
  rw [List.mem_reverse] at h1
  exact (List.dropWhile_sublist (l := s) (p := goIsSpace)).subset h1

/-- Characters surviving removeAll come from the original string and
differ from the removed character. -/
theorem mem_removeAll {c a : Char} {s : List Char} (h : c ∈ removeAll a s) :
    c ∈ s ∧ c ≠ a := by
  unfold removeAll at h
  rw [List.mem_filter] at h
  exact ⟨h.1, by simpa using h.2⟩

/-- Characters of the cleaned phone string come from the input and are
none of the four stripped separators. -/
theorem mem_cleanPhone {c : Char} {s : List Char} (h : c ∈ cleanPhone s) :
    c ∈ s ∧ c ≠ ' ' ∧ c ≠ '-' ∧ c ≠ '(' ∧ c ≠ ')' := by
  unfold cleanPhone at h
  obtain ⟨h, hpar⟩ := mem_removeAll h
  obtain ⟨h, hlpar⟩ := mem_removeAll h
  obtain ⟨h, hdash⟩ := mem_removeAll h
  obtain ⟨h, hsp⟩ := mem_removeAll h
  exact ⟨mem_trimSpace h, hsp, hdash, hlpar, hpar⟩

/-- dropWhile is the identity when the predicate fails everywhere. -/
theorem dropWhile_eq_self_of_all {p : Char → Bool} {s : List Char}
    (h : ∀ c ∈ s, p c = false) : s.dropWhile p = s := by
  cases s with
  | nil => rfl
  | cons a l =>
    rw [List.dropWhile_cons]
    simp [h a (List.mem_cons_self a l)]

/-- TrimSpace is the identity on strings with no white space. -/
theorem trimSpace_eq_self {s : List Char}
    (h : ∀ c ∈ s, goIsSpace c = false) : trimSpace s = s := by
  unfold trimSpace
  rw [dropWhile_eq_self_of_all h]
  rw [dropWhile_eq_self_of_all (fun c hc => h c (List.mem_reverse.mp hc))]
  exact List.reverse_reverse s

/-- removeAll is the identity when the removed character is absent. -/
theorem removeAll_eq_self {a : Char} {s : List Char}
    (h : ∀ c ∈ s, c ≠ a) : removeAll a s = s := by
  unfold removeAll
  rw [List.filter_eq_self]
  intro c hc
  simpa using h c hc

/-- The cleaning phase is the identity on strings that contain no white
space and none of the four separators. -/
theorem cleanPhone_eq_self {s : List Char}
    (h : ∀ c ∈ s, goIsSpace c = false ∧ c ≠ ' ' ∧ c ≠ '-' ∧ c ≠ '(' ∧ c ≠ ')') :
    cleanPhone s = s := by
  unfold cleanPhone
  rw [trimSpace_eq_self (fun c hc => (h c hc).1)]
  rw [removeAll_eq_self (fun c hc => (h c hc).2.1)]
  rw [removeAll_eq_self (fun c hc => (h c hc).2.2.1)]
  rw [removeAll_eq_self (fun c hc => (h c hc).2.2.2.1)]
  rw [removeAll_eq_self (fun c hc => (h c hc).2.2.2.2)]

/-- On a 62-headed string the branch phase is the identity. -/
theorem phoneBranch_62 (t : List Char) :
    phoneBranch ('6' :: '2' :: t) = '6' :: '2' :: t := by
  unfold phoneBranch
  rw [startsWith_head_ne _ _ (by decide), startsWith_head_ne _ _ (by decide)]
  rw [show startsWith ('6' :: '2' :: t) ['6', '2'] = true by
    rw [startsWith_cons, startsWith_cons, startsWith_nil]
    simp]
  simp

/-- The branch phase of the normalizer is idempotent. -/
theorem phoneBranch_idem (s : List Char) : phoneBranch (phoneBranch s) = phoneBranch s := by
  cases s with
  | nil => rfl
  | cons c t =>
    by_cases hplus : c = '+'
    · subst hplus
      have h1 : phoneBranch ('+' :: t) = '6' :: '2' :: t := by
        unfold phoneBranch
        rw [startsWith_single_head]
        simp
      rw [h1, phoneBranch_62]
    · by_cases hzero : c = '0'
      · subst hzero
        have h1 : phoneBranch ('0' :: t) = '6' :: '2' :: t := by
          unfold phoneBranch
          rw [startsWith_head_ne _ _ (by decide), startsWith_single_head]
          simp
        rw [h1, phoneBranch_62]
      · by_cases h62 : startsWith (c :: t) ['6', '2'] = true
        · obtain ⟨u, hu⟩ := startsWith62_shape _ h62
          rw [hu, phoneBranch_62, phoneBranch_62]
        · have h1 : phoneBranch (c :: t) = [] := by
            unfold phoneBranch
            rw [startsWith_head_ne _ _ hplus, startsWith_head_ne _ _ hzero,
              Bool.eq_false_iff.mpr h62]
            simp
          rw [h1]
          rfl

/-- Every character output by the branch phase is a 6, a 2, or a
character of the input. -/
theorem mem_phoneBranch {c : Char} {s : List Char} (h : c ∈ phoneBranch s) :
    c = '6' ∨ c = '2' ∨ c ∈ s := by
  unfold phoneBranch at h
  by_cases h1 : startsWith s ['+'] = true
  · rw [if_pos h1] at h
    rcases List.mem_cons.mp h with h | h
    · exact Or.inl h
    · rcases List.mem_cons.mp h with h | h
      · exact Or.inr (Or.inl h)
      · exact Or.inr (Or.inr ((List.tail_sublist s).subset h))
  · rw [if_neg h1] at h
    by_cases h2 : startsWith s ['0'] = true
    · rw [if_pos h2] at h
      rcases List.mem_cons.mp h with h | h
      · exact Or.inl h
      · rcases List.mem_cons.mp h with h | h
        · exact Or.inr (Or.inl h)
        · exact Or.inr (Or.inr ((List.tail_sublist s).subset h))
    · rw [if_neg h2] at h
      by_cases h3 : startsWith s ['6', '2'] = true
      · rw [if_pos h3] at h
        exact Or.inr (Or.inr h)
      · rw [if_neg h3] at h
        simp at h

/-- The tolerant lookup of handleApprovalRequestNew depends on the
requested identifier only through its leading-zero-stripped form. -/
theorem resolveApprovalNew_congr (a b : List Char)
    (h : trimLeftZeros a = trimLeftZeros b) :
    ∀ rows, resolveApprovalNew a rows = resolveApprovalNew b rows
  | [] => rfl
  | row :: rest => by
    cases row with
    | nil =>
      simp only [resolveApprovalNew]
      exact resolveApprovalNew_congr a b h rest
    | cons c0 cs =>
      simp only [resolveApprovalNew]
      rw [h]
      by_cases hc : trimLeftZeros c0 = trimLeftZeros b
      · rw [if_pos hc, if_pos hc]
      · rw [if_neg hc, if_neg hc]
        exact resolveApprovalNew_congr a b h rest

/-- The tolerant loan lookup of handlePengembalian depends on the
requested identifier only through its leading-zero-stripped form. -/
theorem resolvePengembalianLoan_congr (a b : List Char)
    (h : trimLeftZeros a = trimLeftZeros b) :
    ∀ rows, resolvePengembalianLoan a rows = resolvePengembalianLoan b rows
  | [] => rfl
  | row :: rest => by
    cases row with
    | nil =>
      simp only [resolvePengembalianLoan]
      exact resolvePengembalianLoan_congr a b h rest
    | cons c0 cs =>
      simp only [resolvePengembalianLoan]
      rw [h]
      by_cases hc : trimLeftZeros c0 = trimLeftZeros b
      · rw [if_pos hc, if_pos hc]
      · rw [if_neg hc, if_neg hc]
        exact resolvePengembalianLoan_congr a b h rest

/-- Decimal digits are not white space and are none of the four
stripped separators. -/
theorem digit_not_space_sep {c : Char} (h : isDigitChar c = true) :
    goIsSpace c = false ∧ c ≠ ' ' ∧ c ≠ '-' ∧ c ≠ '(' ∧ c ≠ ')' := by
  have hm : c ∈ digitChars := by
    unfold isDigitChar at h
    simpa using h
  simp only [digitChars, List.mem_cons, List.not_mem_nil, or_false] at hm
  rcases hm with h | h | h | h | h | h | h | h | h | h <;> subst h <;>
    exact ⟨by decide, by decide, by decide, by decide, by decide⟩


/-- C2: for every ledger region (loan intake, approval, return), the
next ordinal allocated for a new record is 1 when the read extent holds
zero data rows and N plus 1 when it holds N data rows (a nil response is
also treated as zero rows). -/
theorem C2_allocate_next (vs : List (List (List Char))) :
    nextOrdinalPinjam (ReadResult.ok (some vs)) = some (vs.length + 1) ∧
    nextOrdinalApproval (ReadResult.ok (some vs)) = some (vs.length + 1) ∧
    nextOrdinalPengembalian (ReadResult.ok (some vs)) = some (vs.length + 1) ∧
    nextOrdinalPinjam (ReadResult.ok none) = some 1 ∧
    nextOrdinalApproval (ReadResult.ok none) = some 1 ∧
    nextOrdinalPengembalian (ReadResult.ok none) = some 1 := by
  refine ⟨?_, ?_, ?_, rfl, rfl, rfl⟩
  · unfold nextOrdinalPinjam
    cases vs with
    | nil => rfl
    | cons v rest => simp
  · unfold nextOrdinalApproval
    rfl
  · unfold nextOrdinalPengembalian
    cases vs with
    | nil => rfl
    | cons v rest => simp

/-- C6 counterexample: a failed extent read does not allocate ordinal 1
in any of the three pipelines. -/
theorem C6_counterexample :
    nextOrdinalPinjam ReadResult.failure ≠ some 1 ∧
    nextOrdinalApproval ReadResult.failure ≠ some 1 ∧
    nextOrdinalPengembalian ReadResult.failure ≠ some 1 := by decide

/-- C6 amended: when the extent read fails each pipeline aborts without
allocating an ordinal; only a successful read with a nil extent is
treated as the empty region, allocating ordinal 1. -/
theorem C6_read_failure_aborts :
    nextOrdinalPinjam ReadResult.failure = none ∧
    nextOrdinalApproval ReadResult.failure = none ∧
    nextOrdinalPengembalian ReadResult.failure = none ∧
    nextOrdinalPinjam (ReadResult.ok none) = some 1 ∧
    nextOrdinalApproval (ReadResult.ok none) = some 1 ∧
    nextOrdinalPengembalian (ReadResult.ok none) = some 1 := by decide

/-- C1 counterexample: with a single row whose identifier column holds
0007, the status-only Approve lookup resolves 0007 but not 7, so the
two raw identifiers do not return the same row there. -/
theorem C1_counterexample :
    findRowApprove (str "7") 0 [[str "0007"]] ≠
      findRowApprove (str "0007") 0 [[str "0007"]] ∧
    findRowApprove (str "7") 0 [[str "0007"]] = none ∧
    findRowApprove (str "0007") 0 [[str "0007"]] = some 5 := by decide

/-- C1 amended: the document-generating Approve lookup and the Return
loan lookup match identifiers after stripping leading zeros from both
sides, so identifiers with equal stripped forms resolve the same row;
the status-only Approve lookup instead compares the raw strings
exactly, matching a row at scan index i (sheet row i plus 5) only on
literal equality. -/
theorem C1_tolerant_matching (a b : List Char) (rows : List (List (List Char)))
    (h : trimLeftZeros a = trimLeftZeros b) :
    (resolveApprovalNew a rows = resolveApprovalNew b rows ∧
     resolvePengembalianLoan a rows = resolvePengembalianLoan b rows) ∧
    (∀ idP i cs rest, findRowApprove idP i ((idP :: cs) :: rest) = some (i + 5)) ∧
    (∀ idP c0 cs i rest, c0 ≠ idP →
      findRowApprove idP i ((c0 :: cs) :: rest) = findRowApprove idP (i + 1) rest) := by
  refine ⟨⟨resolveApprovalNew_congr a b h rows, resolvePengembalianLoan_congr a b h rows⟩, ?_, ?_⟩
  · intro idP i cs rest
    simp [findRowApprove]
  · intro idP c0 cs i rest hne
    simp [findRowApprove, hne]

/-- C1 witness: applying the amended theorem at raw identifiers 7 and
0007 over a region whose row identifier column holds 0007. -/
theorem C1_witness :
    resolveApprovalNew (str "7") [[str "0007", str "Budi"]] =
      resolveApprovalNew (str "0007") [[str "0007", str "Budi"]] :=
  ((C1_tolerant_matching (str "7") (str "0007") [[str "0007", str "Budi"]]
    (by decide)).1).1

/-- C3 counterexample: with two ApprovalRecord rows tolerantly matching
loan identifier 7, the Return join surfaces the first row (ApproverA),
not the most recent one (ApproverB). -/
theorem C3_counterexample :
    (joinApproval (trimLeftZeros (str "7"))
      [[str "0001", str "2025-02-01", str "Budi", str "ApproverA", str "0007", str "Approved"],
       [str "0002", str "2025-02-02", str "Budi", str "ApproverB", str "0007", str "Rejected"]]).approverName
      ≠ str "ApproverB" ∧
    (joinApproval (trimLeftZeros (str "7"))
      [[str "0001", str "2025-02-01", str "Budi", str "ApproverA", str "0007", str "Approved"],
       [str "0002", str "2025-02-02", str "Budi", str "ApproverB", str "0007", str "Rejected"]]).approverName
      = str "ApproverA" := by decide

/-- C3 amended: the Return pipeline joins in the first matching
ApprovalRecord row (not the most recent) for status, approver and date;
those joined fields are the values substituted at the TGLPS, STS and
YNG placeholders of the generated return document; and with a single
ApprovalRecord referencing ordinal 0007, a Return for raw identifier 7
surfaces exactly that record. -/
theorem C3_join_first_match (idT : List Char) (row : List (List Char))
    (rest : List (List (List Char)))
    (hlen : 4 < row.length) (hmatch : trimLeftZeros (row.getD 4 []) = idT) :
    joinApproval idT (row :: rest) =
      ⟨row.getD 1 [], row.getD 5 [], row.getD 3 []⟩ ∧
    (∀ form nomorFmt nowFmt lamaFmt,
      List.lookup (str "<<TGLPS>>") (pengembalianReplacements form nomorFmt nowFmt lamaFmt) =
        some form.ApprovalDate ∧
      List.lookup (str "<<STS>>") (pengembalianReplacements form nomorFmt nowFmt lamaFmt) =
        some form.ApprovalStatus ∧
      List.lookup (str "<<YNG>>") (pengembalianReplacements form nomorFmt nowFmt lamaFmt) =
        some form.ApproverName) ∧
    joinApproval (trimLeftZeros (str "7"))
      [[str "0001", str "2025-02-01", str "Budi", str "Pak Guru", str "0007", str "Approved"]] =
      ⟨str "2025-02-01", str "Approved", str "Pak Guru"⟩ := by
  refine ⟨?_, ?_, by decide⟩
  · unfold joinApproval
    rw [if_pos hlen, if_pos hmatch]
  · intro form nomorFmt nowFmt lamaFmt
    exact ⟨rfl, rfl, rfl⟩

/-- C3 witness: applying the amended theorem at a concrete single-row
approval region referencing ordinal 0007 for the query identifier 7. -/
theorem C3_witness :
    joinApproval (str "7")
      [[str "0009", str "2025-03-03", str "Budi", str "Pak A", str "0007", str "Approved"]] =
      ⟨str "2025-03-03", str "Approved", str "Pak A"⟩ :=
  (C3_join_first_match (str "7")
    [str "0009", str "2025-03-03", str "Budi", str "Pak A", str "0007", str "Approved"]
    [] (by decide) (by decide)).1

/-- C4: evaluating the normalizer at the international-format input
shows the leading plus being replaced by a second country prefix, so
the code returns 626281234567890 where the specified canonical address
is 6281234567890. -/
theorem C4_plus_prefix_eval :
    normalizePhoneNumber (str "+6281234567890") = str "626281234567890" ∧
    normalizePhoneNumber (str "+6281234567890") ≠ str "6281234567890" := by decide

/-- C5 counterexample: an input holding a tab before a stripped
separator normalizes to a string with a trailing tab, which a second
normalization trims away, so the normalizer is not idempotent on all
inputs. -/
theorem C5_counterexample :
    normalizePhoneNumber (normalizePhoneNumber (str "0812\t)")) ≠
      normalizePhoneNumber (str "0812\t)") := by decide

/-- C5 amended: the normalizer is idempotent on every input whose white
space consists only of the space character (in particular on all inputs
free of control and exotic white space), and it returns an
already-canonical address, a digit string starting with 62,
unchanged. -/
theorem C5_idempotent (x : List Char)
    (hx : ∀ c ∈ x, goIsSpace c = true → c = ' ') :
    normalizePhoneNumber (normalizePhoneNumber x) = normalizePhoneNumber x ∧
    (∀ y : List Char, startsWith y ['6', '2'] = true →
      (∀ c ∈ y, isDigitChar c = true) → normalizePhoneNumber y = y) := by
  constructor
  · have hs : ∀ c ∈ cleanPhone x,
        goIsSpace c = false ∧ c ≠ ' ' ∧ c ≠ '-' ∧ c ≠ '(' ∧ c ≠ ')' := by
      intro c hc
      obtain ⟨hmem, h1, h2, h3, h4⟩ := mem_cleanPhone hc
      refine ⟨?_, h1, h2, h3, h4⟩
      cases hsp : goIsSpace c with
      | false => rfl
      | true => exact absurd (hx c hmem hsp) h1
    have hy : ∀ c ∈ phoneBranch (cleanPhone x),
        goIsSpace c = false ∧ c ≠ ' ' ∧ c ≠ '-' ∧ c ≠ '(' ∧ c ≠ ')' := by
      intro c hc
      rcases mem_phoneBranch hc with h | h | h
      · subst h
        exact ⟨by decide, by decide, by decide, by decide, by decide⟩
      · subst h
        exact ⟨by decide, by decide, by decide, by decide, by decide⟩
      · exact hs c h
    show phoneBranch (cleanPhone (phoneBranch (cleanPhone x))) = phoneBranch (cleanPhone x)
    rw [cleanPhone_eq_self hy, phoneBranch_idem]
  · intro y h62 hdig
    have hy : ∀ c ∈ y, goIsSpace c = false ∧ c ≠ ' ' ∧ c ≠ '-' ∧ c ≠ '(' ∧ c ≠ ')' :=
      fun c hc => digit_not_space_sep (hdig c hc)
    obtain ⟨t, ht⟩ := startsWith62_shape y h62
    show phoneBranch (cleanPhone y) = y
    rw [cleanPhone_eq_self hy, ht, phoneBranch_62]

/-- C5 witness: applying the amended idempotence at the separator-laden
sample input of the specification and at a canonical address. -/
theorem C5_witness :
    normalizePhoneNumber (normalizePhoneNumber (str "  0812-3456 (789)0")) =
      normalizePhoneNumber (str "  0812-3456 (789)0") ∧
    normalizePhoneNumber (str "6281234567890") = str "6281234567890" := by
  have H := C5_idempotent (str "  0812-3456 (789)0") (by decide)
  exact ⟨H.1, H.2 (str "6281234567890") (by decide) (by decide)⟩

/-- C7 counterexample: the input 62abc is returned unchanged, so the
normalizer can output a non-empty string that is not a string of
decimal digits. -/
theorem C7_counterexample :
    ¬ (normalizePhoneNumber (str "62abc") = [] ∨
       ∀ c ∈ normalizePhoneNumber (str "62abc"), isDigitChar c = true) := by decide

/-- C7 amended: every normalizer output is either the empty string
(signaling failure) or a string beginning with the country prefix 62;
the output need not consist of digits. -/
theorem C7_output_shape (x : List Char) :
    normalizePhoneNumber x = [] ∨
      startsWith (normalizePhoneNumber x) ['6', '2'] = true := by
  unfold normalizePhoneNumber
  generalize cleanPhone x = s
  unfold phoneBranch
  by_cases h1 : startsWith s ['+'] = true
  · rw [if_pos h1]
    right
    rw [startsWith_cons, startsWith_cons, startsWith_nil]
    simp
  · rw [if_neg h1]
    by_cases h2 : startsWith s ['0'] = true
    · rw [if_pos h2]
      right
      rw [startsWith_cons, startsWith_cons, startsWith_nil]
      simp
    · rw [if_neg h2]
      by_cases h3 : startsWith s ['6', '2'] = true
      · rw [if_pos h3]
        right
        exact h3
      · rw [if_neg h3]
        left
        rfl

/-- C8: when the loan identifier tolerantly matches no Form Peminjam
row, the Return pipeline aborts: no ReturnRecord row is written and no
WhatsApp notification is dispatched. -/
theorem C8_return_not_found (loanRows approvalRows : List (List (List Char)))
    (idPeminjam kondisiAlat keteranganPengembalian fotoPath now approverNo : List Char)
    (pengRead : ReadResult (List (List Char)))
    (h : resolvePengembalianLoan idPeminjam loanRows = none) :
    pengembalianPipeline loanRows approvalRows idPeminjam kondisiAlat
      keteranganPengembalian fotoPath now approverNo pengRead = ⟨none, []⟩ := by
  unfold pengembalianPipeline
  rw [h]

/-- C8 witness: a Return for identifier 9 against a region holding only
row 0001 writes nothing and notifies nobody. -/
theorem C8_witness :
    pengembalianPipeline [[str "0001"]] [] (str "9") (str "Baik") (str "ok") []
      (str "2025-10-11") (str "6287760573989") (ReadResult.ok none) = ⟨none, []⟩ :=
  C8_return_not_found [[str "0001"]] [] (str "9") (str "Baik") (str "ok") []
    (str "2025-10-11") (str "6287760573989") (ReadResult.ok none) (by decide)

/-- C9: a status-only Approve with all three fields present and a
matching row found performs exactly the three cell writes Q (status),
R (timestamp) and S (approver name) on that row, renders no document,
sends no message, and applying those writes to any ledger leaves every
cell outside the three target cells unchanged while setting the three
target cells to the supplied values. -/
theorem C9_status_only_approve (vals : List (List (List Char)))
    (idPinjam approver statusPersetujuan now : List Char) (r : Nat) (g : Ledger)
    (h1 : idPinjam ≠ []) (h2 : approver ≠ []) (h3 : statusPersetujuan ≠ [])
    (h4 : findRowApprove idPinjam 0 vals = some r) :
    handleApproveModel vals idPinjam approver statusPersetujuan now =
      some ⟨[⟨'Q', r, statusPersetujuan⟩, ⟨'R', r, now⟩, ⟨'S', r, approver⟩], [], []⟩ ∧
    (∀ r' c', r' ≠ r ∨ (c' ≠ 'Q' ∧ c' ≠ 'R' ∧ c' ≠ 'S') →
      applyCellWrites g [⟨'Q', r, statusPersetujuan⟩, ⟨'R', r, now⟩, ⟨'S', r, approver⟩] r' c' =
        g r' c') ∧
    applyCellWrites g [⟨'Q', r, statusPersetujuan⟩, ⟨'R', r, now⟩, ⟨'S', r, approver⟩] r 'Q' =
      statusPersetujuan ∧
    applyCellWrites g [⟨'Q', r, statusPersetujuan⟩, ⟨'R', r, now⟩, ⟨'S', r, approver⟩] r 'R' =
      now ∧
    applyCellWrites g [⟨'Q', r, statusPersetujuan⟩, ⟨'R', r, now⟩, ⟨'S', r, approver⟩] r 'S' =
      approver := by
  refine ⟨?_, ?_, ?_, ?_, ?_⟩
  · unfold handleApproveModel
    rw [if_neg (by simp [h1, h2, h3]), h4]
  · intro r' c' hfr
    show (if r' = r ∧ c' = 'S' then approver
      else if r' = r ∧ c' = 'R' then now
      else if r' = r ∧ c' = 'Q' then statusPersetujuan
      else g r' c') = g r' c'
    rcases hfr with hfr | ⟨hq, hr, hs⟩
    · rw [if_neg (fun hh => hfr hh.1), if_neg (fun hh => hfr hh.1),
        if_neg (fun hh => hfr hh.1)]
    · rw [if_neg (fun hh => hs hh.2), if_neg (fun hh => hr hh.2),
        if_neg (fun hh => hq hh.2)]
  · show (if r = r ∧ 'Q' = 'S' then approver
      else if r = r ∧ 'Q' = 'R' then now
      else if r = r ∧ 'Q' = 'Q' then statusPersetujuan
      else g r 'Q') = statusPersetujuan
    rw [if_neg (fun hh => absurd hh.2 (by decide)),
      if_neg (fun hh => absurd hh.2 (by decide)), if_pos ⟨rfl, rfl⟩]
  · show (if r = r ∧ 'R' = 'S' then approver
      else if r = r ∧ 'R' = 'R' then now
      else if r = r ∧ 'R' = 'Q' then statusPersetujuan
      else g r 'R') = now
    rw [if_neg (fun hh => absurd hh.2 (by decide)), if_pos ⟨rfl, rfl⟩]
  · show (if r = r ∧ 'S' = 'S' then approver
      else if r = r ∧ 'S' = 'R' then now
      else if r = r ∧ 'S' = 'Q' then statusPersetujuan
      else g r 'S') = approver
    rw [if_pos ⟨rfl, rfl⟩]

/-- C9 witness: a concrete status-only Approve on a one-row region,
checking the effect record, one untouched cell and one written cell. -/
theorem C9_witness :
    handleApproveModel [[str "0001", str "Budi"]] (str "0001") (str "Pak B")
      (str "Approved") (str "2025-10-11 10:00:00") =
      some ⟨[⟨'Q', 5, str "Approved"⟩, ⟨'R', 5, str "2025-10-11 10:00:00"⟩,
             ⟨'S', 5, str "Pak B"⟩], [], []⟩ ∧
    applyCellWrites (fun _ _ => str "old")
      [⟨'Q', 5, str "Approved"⟩, ⟨'R', 5, str "2025-10-11 10:00:00"⟩,
       ⟨'S', 5, str "Pak B"⟩] 6 'Q' = (fun _ _ => str "old") 6 'Q' ∧
    applyCellWrites (fun _ _ => str "old")
      [⟨'Q', 5, str "Approved"⟩, ⟨'R', 5, str "2025-10-11 10:00:00"⟩,
       ⟨'S', 5, str "Pak B"⟩] 5 'Q' = str "Approved" := by
  have H := C9_status_only_approve [[str "0001", str "Budi"]] (str "0001") (str "Pak B")
    (str "Approved") (str "2025-10-11 10:00:00") 5 (fun _ _ => str "old")
    (by decide) (by decide) (by decide) (by decide)
  exact ⟨H.1, H.2.1 6 'Q' (Or.inl (by decide)), H.2.2.1⟩

/-- C10: the message-send operation re-normalizes the recipient number
itself; when the normalized number does not begin with 62 it returns an
error and issues no request, and any request it does issue goes to the
normalized number, which begins with 62. -/
theorem C10_send_guard (no pesan : List Char) :
    (startsWith (normalizePhoneNumber no) ['6', '2'] = false →
      kirimPesanWaBangkit no pesan = Except.error ()) ∧
    (∀ addr msg, kirimPesanWaBangkit no pesan = Except.ok (addr, msg) →
      startsWith addr ['6', '2'] = true ∧ addr = normalizePhoneNumber no) := by
  constructor
  · intro h
    show (if startsWith (normalizePhoneNumber no) ['6', '2']
      then Except.ok (normalizePhoneNumber no, pesan) else Except.error ()) =
      Except.error ()
    rw [if_neg (by rw [h]; exact Bool.false_ne_true)]
  · intro addr msg h
    by_cases hc : startsWith (normalizePhoneNumber no) ['6', '2'] = true
    · have hok : kirimPesanWaBangkit no pesan =
          Except.ok (normalizePhoneNumber no, pesan) := by
        show (if startsWith (normalizePhoneNumber no) ['6', '2']
          then Except.ok (normalizePhoneNumber no, pesan) else Except.error ()) =
          Except.ok (normalizePhoneNumber no, pesan)
        rw [if_pos hc]
      rw [hok] at h
      simp only [Except.ok.injEq, Prod.mk.injEq] at h
      exact ⟨h.1.symm ▸ hc, h.1.symm⟩
    · have herr : kirimPesanWaBangkit no pesan = Except.error () := by
        show (if startsWith (normalizePhoneNumber no) ['6', '2']
          then Except.ok (normalizePhoneNumber no, pesan) else Except.error ()) =
          Except.error ()
        rw [if_neg hc]
      rw [herr] at h
      exact Except.noConfusion h

/-- C10 witness: a number normalizing to the empty string is rejected
without any request being issued. -/
theorem C10_witness :
    kirimPesanWaBangkit (str "abc") (str "hi") = Except.error () :=
  (C10_send_guard (str "abc") (str "hi")).1 (by decide)
